import Mathlib

/-!
Verification of the todo Record Store layer of the repository
(backend service over a key-value store with an ordered id index).

The Pydantic field models (`TodoBase`, `TodoUpdate` in
`src/backend/app/models/todo.py`) are translated directly from the source.
The store operations (`create_todo`, `get_todo`, `get_all_todos`,
`update_todo`, `delete_todo`, `health_check` of `RedisService`) are not
present under `src/` (only their tests and callers are), so they are
modelled from the spec's operation contracts in section 4.1, with the
null-handling behaviour of section 9.
-/

namespace TodoStore

/-- Priority levels for todos, from `class Priority(str, Enum)` in
`app/models/todo.py`: LOW, MEDIUM, HIGH. -/
inductive Priority where
  | low
  | medium
  | high
deriving DecidableEq, Repr

/-- A stored todo record: the full field set of `TodoInDB` in
`app/models/todo.py` (title, description, completed, done, priority,
plus id and both timestamps).  Timestamps are abstracted as naturals. -/
structure Todo where
  id : String
  title : String
  description : Option String
  completed : Bool
  done : Bool
  priority : Priority
  created_at : Nat
  updated_at : Nat
deriving DecidableEq, Repr

/-- The field set supplied to `create`: the fields of `TodoBase` /
`TodoCreate` in `app/models/todo.py` (no id, no timestamps). -/
structure TodoFields where
  title : String
  description : Option String
  completed : Bool
  done : Bool
  priority : Priority
deriving DecidableEq, Repr

/-- The `TodoBase` defaults from `app/models/todo.py`: `description=None`,
`completed=False`, `done=False`, `priority=Priority.MEDIUM`; only the
(required) title is supplied. -/
def TodoFields.onlyTitle (title : String) : TodoFields :=
  { title := title
    description := none
    completed := false
    done := false
    priority := Priority.medium }

/-- One field of an update payload: the key can be absent from the payload,
present with an explicit null (`None`), or present with a value.  This is
the shape `TodoUpdate.model_dump(exclude_unset=True)` delivers to the
store in `app/api/todos.py`. -/
inductive FieldVal (α : Type) where
  | absent
  | null
  | val (a : α)
deriving DecidableEq, Repr

/-- Applying one payload field over the old value: only a present
non-null value replaces it (section 9 of the spec: an explicit null
clears nothing). -/
def FieldVal.apply {α : Type} : FieldVal α → α → α
  | .absent, old => old
  | .null, old => old
  | .val a, _ => a

/-- Applying one payload field over an optional stored field. -/
def FieldVal.applyOpt {α : Type} : FieldVal α → Option α → Option α
  | .absent, old => old
  | .null, old => old
  | .val a, _ => some a

/-- An update payload: the fields of `TodoUpdate` in
`app/models/todo.py`, each one absent, explicitly null, or a value. -/
structure TodoUpdatePayload where
  title : FieldVal String
  description : FieldVal String
  completed : FieldVal Bool
  done : FieldVal Bool
  priority : FieldVal Priority
deriving DecidableEq, Repr

/-- The empty update payload (no key supplied). -/
def TodoUpdatePayload.empty : TodoUpdatePayload :=
  { title := .absent
    description := .absent
    completed := .absent
    done := .absent
    priority := .absent }

section KV

variable {α : Type}

/-- Lookup in the primary key-value map (the backend's `GET` of the
record's primary key), modelled as an association list from id to record. -/
def kvGet : List (String × α) → String → Option α
  | [], _ => none
  | (k, v) :: rest, k' => if k = k' then some v else kvGet rest k'

/-- Overwriting write of the primary key (the backend's `SET`): replaces
the value under the key if present, otherwise adds the binding. -/
def kvSet : List (String × α) → String → α → List (String × α)
  | [], k', v' => [(k', v')]
  | (k, v) :: rest, k', v' =>
      if k = k' then (k', v') :: rest else (k, v) :: kvSet rest k' v'

/-- Removal of the primary key (the backend's `DEL`): drops every binding
under the key. -/
def kvDel : List (String × α) → String → List (String × α)
  | [], _ => []
  | (k, v) :: rest, k' =>
      if k = k' then kvDel rest k' else (k, v) :: kvDel rest k'

theorem kvGet_kvSet_same (m : List (String × α)) (k : String) (v : α) :
    kvGet (kvSet m k v) k = some v := by
  induction m with
  | nil => simp [kvSet, kvGet]
  | cons p rest ih =>
      obtain ⟨k', v'⟩ := p
      by_cases h : k' = k
      · simp [kvSet, kvGet, h]
      · simp [kvSet, kvGet, h, ih]

theorem kvGet_kvSet_other (m : List (String × α)) (k k' : String) (v : α)
    (h : k ≠ k') : kvGet (kvSet m k v) k' = kvGet m k' := by
  induction m with
  | nil => simp [kvSet, kvGet, h]
  | cons p rest ih =>
      obtain ⟨a, b⟩ := p
      by_cases ha : a = k
      · subst ha
        simp [kvSet, kvGet, h]
      · simp [kvSet, kvGet, ha, ih]

theorem kvGet_kvDel_same (m : List (String × α)) (k : String) :
    kvGet (kvDel m k) k = none := by
  induction m with
  | nil => simp [kvDel, kvGet]
  | cons p rest ih =>
      obtain ⟨a, b⟩ := p
      by_cases ha : a = k
      · simp [kvDel, ha, ih]
      · simp [kvDel, kvGet, ha, ih]

theorem kvGet_kvDel_other (m : List (String × α)) (k k' : String)
    (h : k ≠ k') : kvGet (kvDel m k) k' = kvGet m k' := by
  induction m with
  | nil => simp [kvDel, kvGet]
  | cons p rest ih =>
      obtain ⟨a, b⟩ := p
      by_cases ha : a = k
      · subst ha
        simp [kvDel, kvGet, h, ih]
      · simp [kvDel, kvGet, ha, ih]

end KV

/-- The store's full state: the primary records (id to serialized record,
here the record itself since the codec round-trips) and the index key
`todos:list`, an ordered sequence of ids. -/
structure Store where
  records : List (String × Todo)
  index : List String
deriving DecidableEq, Repr

/-- The empty store: no records, empty index. -/
def Store.empty : Store := { records := [], index := [] }

/-- Modelled from the spec: `get(id) → Record | absent` of the Record
Store (`RedisService.get_todo`, absent from `src/`).  Reads the primary
key; if absent, returns the not-found sentinel; if present, returns the
deserialized record (spec section 4.1). -/
def get_todo (s : Store) (id : String) : Option Todo :=
  kvGet s.records id

/-- Modelled from the spec: `create(id, fields) → Record` of the Record
Store (`RedisService.create_todo`, absent from `src/`).  Constructs the
full record by merging the supplied fields with `created_at` and
`updated_at`, both set to the current time `now`, writes it under the
primary key, appends the id to the tail of the index, and returns the
constructed record (spec section 4.1). -/
def create_todo (s : Store) (id : String) (f : TodoFields) (now : Nat) :
    Store × Todo :=
  let t : Todo :=
    { id := id
      title := f.title
      description := f.description
      completed := f.completed
      done := f.done
      priority := f.priority
      created_at := now
      updated_at := now }
  ({ records := kvSet s.records id t, index := s.index ++ [id] }, t)

/-- Modelled from the spec: `list() → ordered sequence of Record` of the
Record Store (`RedisService.get_all_todos`, absent from `src/`).  Walks
the index in order; for each id attempts a primary-key read; ids whose
record is missing are silently skipped (spec section 4.1). -/
def listLoop (s : Store) : List String → List Todo
  | [] => []
  | id :: rest =>
      match get_todo s id with
      | some t => t :: listLoop s rest
      | none => listLoop s rest

/-- Modelled from the spec: entry point of `list()` — reads the full
index sequence and runs the per-id loop. -/
def get_all_todos (s : Store) : List Todo :=
  listLoop s s.index

/-- Modelled from the spec: `update(id, partial_fields) → Record | absent`
of the Record Store (`RedisService.update_todo`, absent from `src/`).
Reads the existing record (if absent, returns the not-found sentinel with
no side effects), applies the supplied non-null fields over it, sets
`updated_at` to the current time, overwrites the primary key, leaves the
index untouched, and returns the full post-update record
(spec sections 4.1 and 9). -/
def update_todo (s : Store) (id : String) (p : TodoUpdatePayload)
    (now : Nat) : Store × Option Todo :=
  match get_todo s id with
  | none => (s, none)
  | some t =>
      let t' : Todo :=
        { t with
          title := p.title.apply t.title
          description := p.description.applyOpt t.description
          completed := p.completed.apply t.completed
          done := p.done.apply t.done
          priority := p.priority.apply t.priority
          updated_at := now }
      ({ s with records := kvSet s.records id t' }, some t')

/-- Modelled from the spec: `delete(id) → boolean success` of the Record
Store (`RedisService.delete_todo`, absent from `src/`).  If the primary
key does not exist, returns false with no index mutation; otherwise
removes the primary key, removes the first (and, ids being unique, only)
matching occurrence of the id from the index sequence, and returns true
(spec section 4.1). -/
def delete_todo (s : Store) (id : String) : Store × Bool :=
  match get_todo s id with
  | none => (s, false)
  | some _ =>
      ({ records := kvDel s.records id
         index := s.index.erase id }, true)

/-- Outcome of the backend liveness probe (the Redis `PING`): either the
backend responds, or the client raises some exception (connection error,
timeout, anything else). -/
inductive PingOutcome where
  | responds
  | raises (msg : String)
deriving DecidableEq, Repr

/-- Modelled from the spec: `health_check() → boolean` of the Record
Store (`RedisService.health_check`, absent from `src/`).  Issues the
liveness probe; returns true if the backend responds and false on any
failure, never propagating the underlying error (spec section 4.1) —
totality of this function is the no-propagation guarantee. -/
def health_check (r : PingOutcome) : Bool :=
  match r with
  | .responds => true
  | .raises _ => false

/-- Title bound from `app/models/todo.py`:
`title: str = Field(..., min_length=1, max_length=200)`. -/
def validTitle (t : String) : Prop :=
  1 ≤ t.length ∧ t.length ≤ 200

instance (t : String) : Decidable (validTitle t) := by
  unfold validTitle
  infer_instance

/-- Bound for the optional stored description from `app/models/todo.py`:
`Field(None, max_length=1000)`; an absent description is admitted. -/
def validDescr : Option String → Prop
  | none => True
  | some d => d.length ≤ 1000

instance : (d : Option String) → Decidable (validDescr d)
  | none => .isTrue trivial
  | some d => inferInstanceAs (Decidable (d.length ≤ 1000))

/-- A payload field satisfies a bound when it carries a value; absent and
explicitly-null fields are admitted (`Optional[...]` in `TodoUpdate`). -/
def FieldValOk {α : Type} (P : α → Prop) : FieldVal α → Prop
  | .absent => True
  | .null => True
  | .val a => P a

instance {α : Type} (P : α → Prop) [DecidablePred P] :
    (x : FieldVal α) → Decidable (FieldValOk P x)
  | .absent => .isTrue trivial
  | .null => .isTrue trivial
  | .val a => inferInstanceAs (Decidable (P a))

/-- A create field set admitted by the `TodoCreate` model of
`app/models/todo.py`: title within [1, 200], description at most 1000
characters when present. -/
def TodoFields.Valid (f : TodoFields) : Prop :=
  validTitle f.title ∧ validDescr f.description

instance (f : TodoFields) : Decidable f.Valid := by
  unfold TodoFields.Valid
  infer_instance

/-- An update payload admitted by the `TodoUpdate` model of
`app/models/todo.py`: every supplied value satisfies its field bound
(`title: Optional[str] = Field(None, min_length=1, max_length=200)`,
`description: Optional[str] = Field(None, max_length=1000)`). -/
def TodoUpdatePayload.Valid (p : TodoUpdatePayload) : Prop :=
  FieldValOk validTitle p.title ∧
  FieldValOk (fun d => d.length ≤ 1000) p.description

instance (p : TodoUpdatePayload) : Decidable p.Valid := by
  unfold TodoUpdatePayload.Valid
  infer_instance

/-- A stored record within the field bounds of the models. -/
def Todo.Bounded (t : Todo) : Prop :=
  validTitle t.title ∧ validDescr t.description

instance (t : Todo) : Decidable t.Bounded := by
  unfold Todo.Bounded
  infer_instance

/-- Every record in the store is within the field bounds. -/
def Store.Bounded (s : Store) : Prop :=
  ∀ id t, get_todo s id = some t → t.Bounded

/-- Store states reachable from the empty store under a monotone clock:
time may advance between operations and each operation runs at the
current time. -/
inductive Reach : Store → Nat → Prop where
  | init : Reach Store.empty 0
  | tick {s : Store} {n m : Nat} : Reach s n → n ≤ m → Reach s m
  | create {s : Store} {n : Nat} {id : String} {f : TodoFields} :
      Reach s n → Reach (create_todo s id f n).1 n
  | update {s : Store} {n : Nat} {id : String} {p : TodoUpdatePayload} :
      Reach s n → Reach (update_todo s id p n).1 n
  | delete {s : Store} {n : Nat} {id : String} :
      Reach s n → Reach (delete_todo s id).1 n

/-! Concrete sample inputs, mirroring the fixtures of
`tests/conftest.py`, used by the witness theorems. -/

/-- The `sample_todo_data` fixture of `tests/conftest.py`. -/
def sampleFields : TodoFields :=
  { title := "Test Todo"
    description := some "This is a test todo item"
    completed := false
    done := false
    priority := Priority.medium }

/-- Store holding one record created at time 0 from the sample fields. -/
def s1 : Store := (create_todo Store.empty "test-id-1" sampleFields 0).1

/-- The record returned by that create. -/
def t1 : Todo := (create_todo Store.empty "test-id-1" sampleFields 0).2

/-- The sample store with a dangling id appended to the index and no
record behind it (the manual `rpush` of
`test_get_all_todos_ignores_missing`). -/
def s1drift : Store := { s1 with index := s1.index ++ ["fake-id"] }

theorem listLoop_eq_filterMap (s : Store) (l : List String) :
    listLoop s l = l.filterMap (fun i => get_todo s i) := by
  induction l with
  | nil => rfl
  | cons id rest ih =>
      cases h : get_todo s id <;> simp [listLoop, h, ih]

/-- Claim C1: `list()` returns exactly the records of ids in the index
whose primary record is present — every returned record comes from an id
in the index whose `get` is present (missing ids are silently skipped,
with no failure and no placeholders), no id in the index whose record is
present is omitted, results appear in index order (the list equals the
in-order traversal of the index keeping present records), and an id
inserted via `create` is in the new index. -/
theorem get_all_todos_exact (s : Store) :
    get_all_todos s = s.index.filterMap (fun i => get_todo s i) ∧
    (∀ t, t ∈ get_all_todos s → ∃ i, i ∈ s.index ∧ get_todo s i = some t) ∧
    (∀ i, i ∈ s.index → ∀ t, get_todo s i = some t → t ∈ get_all_todos s) ∧
    (∀ id f now, id ∈ ((create_todo s id f now).1).index) := by
  have hmain : get_all_todos s = s.index.filterMap (fun i => get_todo s i) :=
    listLoop_eq_filterMap s s.index
  refine ⟨hmain, ?_, ?_, ?_⟩
  · intro t ht
    rw [hmain] at ht
    rcases List.mem_filterMap.mp ht with ⟨i, hi, hget⟩
    exact ⟨i, hi, hget⟩
  · intro i hi t hget
    rw [hmain]
    exact List.mem_filterMap.mpr ⟨i, hi, hget⟩
  · intro id f now
    simp [create_todo]

/-- Witness for C1 at the drifted sample store: the index holds
"test-id-1" and the dangling "fake-id"; the record behind "test-id-1" is
returned and nothing stands in for "fake-id". -/
theorem get_all_todos_exact_witness :
    ("test-id-1" ∈ s1drift.index) ∧ (get_todo s1drift "test-id-1" = some t1) ∧
    t1 ∈ get_all_todos s1drift ∧ get_all_todos s1drift = [t1] :=
  ⟨by decide, by decide,
    (get_all_todos_exact s1drift).2.2.1 "test-id-1" (by decide) t1 (by decide),
    by decide⟩

/-- Claim C2: for every store state, valid field set and id, `get(i)`
immediately after `create(i, F)` returns a record equal to the record
returned by `create(i, F)`. -/
theorem get_after_create (s : Store) (id : String) (f : TodoFields)
    (now : Nat) :
    get_todo (create_todo s id f now).1 id = some (create_todo s id f now).2 := by
  simp [create_todo, get_todo, kvGet_kvSet_same]

/-- The frame condition of a partial update: id and `created_at` are
untouched, a field whose key is absent from the payload keeps its
pre-update value, and a field supplied with a value takes that value. -/
def UpdateApplied (t0 t' : Todo) (p : TodoUpdatePayload) : Prop :=
  t'.id = t0.id ∧ t'.created_at = t0.created_at ∧
  (p.title = .absent → t'.title = t0.title) ∧
  (∀ v, p.title = .val v → t'.title = v) ∧
  (p.description = .absent → t'.description = t0.description) ∧
  (∀ v, p.description = .val v → t'.description = some v) ∧
  (p.completed = .absent → t'.completed = t0.completed) ∧
  (∀ b, p.completed = .val b → t'.completed = b) ∧
  (p.done = .absent → t'.done = t0.done) ∧
  (∀ b, p.done = .val b → t'.done = b) ∧
  (p.priority = .absent → t'.priority = t0.priority) ∧
  (∀ q, p.priority = .val q → t'.priority = q)

/-- Claim C3: on an existing record, `update(id, partial)` applies exactly
the fields supplied in the payload: fields absent from the payload
(including id and `created_at`) keep their pre-update values, supplied
values are applied, the index is untouched, and `updated_at` is set to
the current time — strictly greater than the pre-update `updated_at`
when the clock has advanced. -/
theorem update_frame (s : Store) (id : String) (p : TodoUpdatePayload)
    (now : Nat) (t0 : Todo) (hget : get_todo s id = some t0)
    (hnow : t0.updated_at < now) :
    ∃ t', (update_todo s id p now).2 = some t' ∧
      (update_todo s id p now).1.index = s.index ∧
      UpdateApplied t0 t' p ∧ t'.updated_at = now ∧
      t0.updated_at < t'.updated_at := by
  refine ⟨{ t0 with
      title := p.title.apply t0.title
      description := p.description.applyOpt t0.description
      completed := p.completed.apply t0.completed
      done := p.done.apply t0.done
      priority := p.priority.apply t0.priority
      updated_at := now }, ?_, ?_, ?_, rfl, hnow⟩
  · simp only [update_todo, hget]
  · simp only [update_todo, hget]
  · unfold UpdateApplied
    refine ⟨rfl, rfl, ?_, ?_, ?_, ?_, ?_, ?_, ?_, ?_, ?_, ?_⟩ <;>
      · intros
        simp_all [FieldVal.apply, FieldVal.applyOpt]

/-- Payload supplying only `priority = high` (the scenario of the spec and
of `test_update_todo_title`'s family). -/
def pHigh : TodoUpdatePayload :=
  { title := .absent
    description := .absent
    completed := .absent
    done := .absent
    priority := .val Priority.high }

/-- Witness for C3: updating the sample record with only
`priority = high` at time 1. -/
theorem update_frame_witness :
    (get_todo s1 "test-id-1" = some t1 ∧ t1.updated_at < 1) ∧
    (∃ t', (update_todo s1 "test-id-1" pHigh 1).2 = some t' ∧
      (update_todo s1 "test-id-1" pHigh 1).1.index = s1.index ∧
      UpdateApplied t1 t' pHigh ∧ t'.updated_at = 1 ∧
      t1.updated_at < t'.updated_at) :=
  ⟨⟨by decide, by decide⟩,
    update_frame s1 "test-id-1" pHigh 1 t1 (by decide) (by decide)⟩

/-- What a successful delete does: returns true, removes the primary key
(the record is gone while every other id is untouched), erases the id's
occurrence from the index, and a second delete of the same id returns
false. -/
def DeleteOk (s : Store) (id : String) : Prop :=
  (delete_todo s id).2 = true ∧
  (delete_todo s id).1.records = kvDel s.records id ∧
  (delete_todo s id).1.index = s.index.erase id ∧
  get_todo (delete_todo s id).1 id = none ∧
  (∀ j, id ≠ j → get_todo (delete_todo s id).1 j = get_todo s j) ∧
  (delete_todo (delete_todo s id).1 id).2 = false

/-- Claim C4: `delete(id)` on a nonexistent record returns false and
mutates nothing; on an existing record it removes the primary key,
removes the id's occurrence from the index, and returns true — so delete
then get yields absent, and delete twice yields true then false. -/
theorem delete_spec (s : Store) (id : String) :
    (get_todo s id = none → delete_todo s id = (s, false)) ∧
    (∀ t, get_todo s id = some t → DeleteOk s id) := by
  constructor
  · intro h
    simp [delete_todo, h]
  · intro t h
    unfold DeleteOk
    refine ⟨?_, ?_, ?_, ?_, ?_, ?_⟩
    · simp only [delete_todo, h]
    · simp only [delete_todo, h]
    · simp only [delete_todo, h]
    · have h' : kvGet s.records id = some t := h
      simp [delete_todo, h, h', get_todo, kvGet_kvDel_same]
    · intro j hj
      have h' : kvGet s.records id = some t := h
      simp [delete_todo, h, h', get_todo, kvGet_kvDel_other _ _ _ hj]
    · have hnone :
          get_todo ({ records := kvDel s.records id,
                      index := s.index.erase id } : Store) id = none := by
        simp [get_todo, kvGet_kvDel_same]
      simp [delete_todo, h, hnone]

/-- Witness for C4: deleting the sample record. -/
theorem delete_spec_witness :
    (get_todo s1 "test-id-1" = some t1) ∧ DeleteOk s1 "test-id-1" :=
  ⟨by decide, (delete_spec s1 "test-id-1").2 t1 (by decide)⟩

/-- Claim C5: `update(id, partial)` on a nonexistent id returns the
not-found sentinel and leaves the whole store state (records and index)
unchanged, for every payload. -/
theorem update_not_found (s : Store) (id : String) (p : TodoUpdatePayload)
    (now : Nat) (h : get_todo s id = none) :
    update_todo s id p now = (s, none) := by
  simp [update_todo, h]

/-- Witness for C5: updating a missing id in the sample store. -/
theorem update_not_found_witness :
    get_todo s1 "missing-id" = none ∧
    update_todo s1 "missing-id" TodoUpdatePayload.empty 5 = (s1, none) :=
  ⟨by decide,
    update_not_found s1 "missing-id" TodoUpdatePayload.empty 5 (by decide)⟩

/-- Claim C6: creating a record with only a title supplied (all other
fields at the `TodoBase` defaults) yields a record with no description,
`completed = false`, `done = false`, `priority = medium`, and
`created_at` equal to `updated_at`. -/
theorem create_only_title_defaults (s : Store) (id ti : String) (now : Nat) :
    ((create_todo s id (TodoFields.onlyTitle ti) now).2).description = none ∧
    ((create_todo s id (TodoFields.onlyTitle ti) now).2).completed = false ∧
    ((create_todo s id (TodoFields.onlyTitle ti) now).2).done = false ∧
    ((create_todo s id (TodoFields.onlyTitle ti) now).2).priority =
      Priority.medium ∧
    ((create_todo s id (TodoFields.onlyTitle ti) now).2).created_at =
      ((create_todo s id (TodoFields.onlyTitle ti) now).2).updated_at := by
  simp [create_todo, TodoFields.onlyTitle]

/-- Null handling of a partial update (section 9 of the spec): a field
supplied with an explicit null keeps its pre-update value, while fields
supplied with values in the same payload are applied normally. -/
def NullSkipped (t0 t' : Todo) (p : TodoUpdatePayload) : Prop :=
  (p.title = .null → t'.title = t0.title) ∧
  (p.description = .null → t'.description = t0.description) ∧
  (p.completed = .null → t'.completed = t0.completed) ∧
  (p.done = .null → t'.done = t0.done) ∧
  (p.priority = .null → t'.priority = t0.priority) ∧
  (∀ v, p.title = .val v → t'.title = v) ∧
  (∀ v, p.description = .val v → t'.description = some v) ∧
  (∀ b, p.completed = .val b → t'.completed = b) ∧
  (∀ b, p.done = .val b → t'.done = b) ∧
  (∀ q, p.priority = .val q → t'.priority = q)

/-- Claim C7: on an existing record, an update payload mapping a field to
an explicit null leaves that field unchanged (explicit null clears
nothing, exactly as if the key were not supplied), while non-null fields
of the same payload are applied normally. -/
theorem update_null_skips (s : Store) (id : String) (p : TodoUpdatePayload)
    (now : Nat) (t0 : Todo) (hget : get_todo s id = some t0) :
    ∃ t', (update_todo s id p now).2 = some t' ∧ NullSkipped t0 t' p := by
  refine ⟨{ t0 with
      title := p.title.apply t0.title
      description := p.description.applyOpt t0.description
      completed := p.completed.apply t0.completed
      done := p.done.apply t0.done
      priority := p.priority.apply t0.priority
      updated_at := now }, ?_, ?_⟩
  · simp only [update_todo, hget]
  · unfold NullSkipped
    refine ⟨?_, ?_, ?_, ?_, ?_, ?_, ?_, ?_, ?_, ?_⟩ <;>
      · intros
        simp_all [FieldVal.apply, FieldVal.applyOpt]

/-- The payload of `test_update_todo_with_none_values`: title explicitly
null, completed supplied as true. -/
def pNullTitle : TodoUpdatePayload :=
  { title := .null
    description := .absent
    completed := .val true
    done := .absent
    priority := .absent }

/-- Witness for C7: updating the sample record with
`title = null, completed = true`. -/
theorem update_null_skips_witness :
    (get_todo s1 "test-id-1" = some t1) ∧
    (∃ t', (update_todo s1 "test-id-1" pNullTitle 2).2 = some t' ∧
      NullSkipped t1 t' pNullTitle) :=
  ⟨by decide, update_null_skips s1 "test-id-1" pNullTitle 2 t1 (by decide)⟩

theorem reach_timestamps {s : Store} {n : Nat} (h : Reach s n) :
    ∀ id t, get_todo s id = some t →
      t.created_at ≤ t.updated_at ∧ t.updated_at ≤ n := by
  induction h with
  | init =>
      intro id t h
      simp [get_todo, Store.empty, kvGet] at h
  | tick hr hnm ih =>
      intro id t h
      exact ⟨(ih id t h).1, le_trans (ih id t h).2 hnm⟩
  | create hr ih =>
      rename_i s n id f
      intro j t hj
      simp only [create_todo, get_todo] at hj
      by_cases hid : id = j
      · subst hid
        rw [kvGet_kvSet_same] at hj
        cases hj
        exact ⟨le_refl n, le_refl n⟩
      · rw [kvGet_kvSet_other _ _ _ _ hid] at hj
        exact ih j t hj
  | update hr ih =>
      rename_i s n id p
      intro j t hj
      cases hg : get_todo s id with
      | none =>
          simp only [update_todo, hg] at hj
          exact ih j t hj
      | some t0 =>
          have hg' : kvGet s.records id = some t0 := hg
          simp only [update_todo, get_todo, hg'] at hj
          by_cases hid : id = j
          · subst hid
            rw [kvGet_kvSet_same] at hj
            cases hj
            exact ⟨le_trans (ih id t0 hg).1 (ih id t0 hg).2, le_refl n⟩
          · rw [kvGet_kvSet_other _ _ _ _ hid] at hj
            exact ih j t hj
  | delete hr ih =>
      rename_i s n id
      intro j t hj
      cases hg : get_todo s id with
      | none =>
          simp only [delete_todo, hg] at hj
          exact ih j t hj
      | some t0 =>
          have hg' : kvGet s.records id = some t0 := hg
          simp only [delete_todo, get_todo, hg'] at hj
          by_cases hid : id = j
          · subst hid
            rw [kvGet_kvDel_same] at hj
            cases hj
          · rw [kvGet_kvDel_other _ _ _ hid] at hj
            exact ih j t hj

/-- Claim C8: in every reachable store state every stored record
satisfies `created_at ≤ updated_at`; the two timestamps are equal on the
record returned by create; and a successful update keeps `created_at`
and sets `updated_at` to the current time, never below the pre-update
`updated_at`. -/
theorem timestamps_invariant (s : Store) (n : Nat) (h : Reach s n) :
    (∀ id t, get_todo s id = some t → t.created_at ≤ t.updated_at) ∧
    (∀ id f, ((create_todo s id f n).2).created_at =
      ((create_todo s id f n).2).updated_at) ∧
    (∀ id p t0 t', get_todo s id = some t0 →
      (update_todo s id p n).2 = some t' →
      t'.created_at = t0.created_at ∧ t'.updated_at = n ∧
      t0.updated_at ≤ t'.updated_at) := by
  refine ⟨fun id t ht => (reach_timestamps h id t ht).1, fun id f => rfl, ?_⟩
  intro id p t0 t' hget hupd
  simp only [update_todo, hget] at hupd
  cases hupd
  exact ⟨rfl, rfl, (reach_timestamps h id t0 hget).2⟩

/-- Witness for C8: the sample store is reachable (one create at time 0)
and its record satisfies the invariant. -/
theorem timestamps_invariant_witness :
    Reach s1 0 ∧
    (∀ id t, get_todo s1 id = some t → t.created_at ≤ t.updated_at) := by
  have hr : Reach s1 0 :=
    @Reach.create Store.empty 0 "test-id-1" sampleFields Reach.init
  exact ⟨hr, (timestamps_invariant s1 0 hr).1⟩

/-- Claim C9: `health_check` returns true when the backend responds to
the liveness probe and false on any raised backend failure; being a total
function into booleans, it propagates no error to the caller. -/
theorem health_check_total :
    health_check PingOutcome.responds = true ∧
    ∀ m, health_check (PingOutcome.raises m) = false :=
  ⟨rfl, fun _ => rfl⟩

theorem validTitle_ne_empty {x : String} (h : validTitle x) : x ≠ "" := by
  intro he
  subst he
  exact absurd h.1 (by decide)

/-- Claim C10: the field bounds of the models — title length in [1, 200],
description length at most 1000 when present — are preserved by create
with an admitted field set, by update with an admitted payload, and by
delete; in particular update can never set a title to the empty string. -/
theorem bounds_invariant (s : Store) (hs : Store.Bounded s) :
    (∀ id f now, f.Valid → Store.Bounded (create_todo s id f now).1) ∧
    (∀ id p now, p.Valid → Store.Bounded (update_todo s id p now).1) ∧
    (∀ id, Store.Bounded (delete_todo s id).1) ∧
    (∀ id p now t', p.Valid → (update_todo s id p now).2 = some t' →
      validTitle t'.title ∧ t'.title ≠ "") := by
  have hupd : ∀ id p now t', p.Valid → (update_todo s id p now).2 = some t' →
      t'.Bounded := by
    intro id p now t' hp hu
    cases hg : get_todo s id with
    | none =>
        simp only [update_todo, hg] at hu
        cases hu
    | some t0 =>
        simp only [update_todo, hg] at hu
        cases hu
        constructor
        · cases hti : p.title with
          | absent => simpa [FieldVal.apply, hti] using (hs id t0 hg).1
          | null => simpa [FieldVal.apply, hti] using (hs id t0 hg).1
          | val v =>
              have := hp.1
              rw [hti] at this
              simpa [FieldVal.apply, hti] using this
        · cases hde : p.description with
          | absent => simpa [FieldVal.applyOpt, hde] using (hs id t0 hg).2
          | null => simpa [FieldVal.applyOpt, hde] using (hs id t0 hg).2
          | val v =>
              have := hp.2
              rw [hde] at this
              simpa [FieldVal.applyOpt, hde, validDescr] using this
  refine ⟨?_, ?_, ?_, ?_⟩
  · intro id f now hf j t hj
    simp only [create_todo, get_todo] at hj
    by_cases hid : id = j
    · subst hid
      rw [kvGet_kvSet_same] at hj
      cases hj
      exact ⟨hf.1, hf.2⟩
    · rw [kvGet_kvSet_other _ _ _ _ hid] at hj
      exact hs j t hj
  · intro id p now hp j t hj
    cases hg : get_todo s id with
    | none =>
        simp only [update_todo, hg] at hj
        exact hs j t hj
    | some t0 =>
        have hg' : kvGet s.records id = some t0 := hg
        simp only [update_todo, get_todo, hg'] at hj
        by_cases hid : id = j
        · subst hid
          rw [kvGet_kvSet_same] at hj
          cases hj
          exact hupd id p now _ hp (by simp only [update_todo, hg])
        · rw [kvGet_kvSet_other _ _ _ _ hid] at hj
          exact hs j t hj
  · intro id j t hj
    cases hg : get_todo s id with
    | none =>
        simp only [delete_todo, hg] at hj
        exact hs j t hj
    | some t0 =>
        have hg' : kvGet s.records id = some t0 := hg
        simp only [delete_todo, get_todo, hg'] at hj
        by_cases hid : id = j
        · subst hid
          rw [kvGet_kvDel_same] at hj
          cases hj
        · rw [kvGet_kvDel_other _ _ _ hid] at hj
          exact hs j t hj
  · intro id p now t' hp hu
    have hb := hupd id p now t' hp hu
    exact ⟨hb.1, validTitle_ne_empty hb.1⟩

/-- Witness for C10: the sample store is bounded, the single-title field
set is admitted, and creating with it preserves the bounds. -/
theorem bounds_invariant_witness :
    Store.Bounded s1 ∧ (TodoFields.onlyTitle "x").Valid ∧
    Store.Bounded (create_todo s1 "test-id-2" (TodoFields.onlyTitle "x") 7).1 := by
  have hs : Store.Bounded s1 := by
    intro id t h
    simp only [s1, get_todo, create_todo, Store.empty, kvSet, kvGet] at h
    split at h
    · cases h
      decide
    · cases h
  exact ⟨hs, by decide,
    (bounds_invariant s1 hs).1 "test-id-2" (TodoFields.onlyTitle "x") 7
      (by decide)⟩

end TodoStore
